import Mathlib

/-!
# Verification of the Eleanor indexing and loudness-analysis pipeline

A shallow embedding, in Lean, of the indexing core of the Eleanor music
player (`src/backend/indexing.rs`, `src/backend/replaygain.rs`), together
with theorems settling the specification claims about it.

Modelling conventions:
* Rust machine integers become `Nat`/`Int` with explicit bounds where
  overflow or checked narrowing matters.
* `f32` values flowing through the ReplayGain pipeline are modelled as `ℚ`:
  every claim about them concerns data flow (which value ends up where),
  not floating-point rounding, and the decimal tag strings in the claims
  denote exact rationals.
* Decoded audio samples are modelled as `Int` values: only their identity
  and multiplicity matter to the claims, never arithmetic on them.
* External collaborators (the symphonia decoder, the `replaygain` DSP
  crate's gain computation) are parameters of the definitions: a packet
  carries the outcome its decode would produce, the set of sample rates the
  loudness algorithm supports is a `Nat → Bool` argument, and the final
  gain/peak computation is a `List Int → ℚ × ℚ` argument.
* Fallible Rust code returning `Result<T, EleanorError>` becomes
  `Except EleanorError T`.
-/

/-- Error classes of `symphonia::core::errors::Error` distinguished by the
iterator in `indexing.rs`: an I/O error of kind `UnexpectedEof` (normal end
of stream), any other I/O error, a recoverable `DecodeError`, and every
remaining class. -/
inductive SymphoniaError where
  | ioUnexpectedEof
  | ioOther
  | decodeError
  | other
  deriving DecidableEq, Repr

/-- The error type of `src/backend/error.rs`, restricted to the variants the
indexing pipeline can produce.  `miette` carries the diagnostic message of a
`miette!` ad-hoc error. -/
inductive EleanorError where
  | tryFromIntError
  | parseIntError
  | parseFloatError
  | symphonia (e : SymphoniaError)
  | lofty
  | database
  | io
  | miette (msg : String)
  deriving DecidableEq, Repr

/-! ## Checksum accumulator (`adler::Adler32`)

`indexing.rs` feeds every packet's raw bytes to an `adler::Adler32` hasher
through `Hasher::write` and reads the result with `Hasher::finish`, which
promotes the 32-bit Adler-32 value to `u64`.  Adler-32 keeps two running
sums modulo 65521: `a` starts at 1 and accumulates bytes, `b` starts at 0
and accumulates successive values of `a`. -/

/-- State of the Adler-32 rolling checksum: the two running sums. -/
structure Adler32 where
  a : Nat
  b : Nat
  deriving DecidableEq, Repr

/-- `Adler32::new()`: `a = 1`, `b = 0`. -/
def Adler32.new : Adler32 := ⟨1, 0⟩

/-- Feed one byte into the Adler-32 state. -/
def Adler32.step (s : Adler32) (byte : Nat) : Adler32 :=
  ⟨(s.a + byte) % 65521, (s.b + (s.a + byte) % 65521) % 65521⟩

/-- `Hasher::write`: feed a byte buffer, byte by byte, in order. -/
def Adler32.write (s : Adler32) (bytes : List Nat) : Adler32 :=
  bytes.foldl Adler32.step s

/-- `Hasher::finish`: combine the sums into `(b << 16) | a` and promote the
32-bit result to 64 bits. -/
def Adler32.finish (s : Adler32) : Nat :=
  s.b * 65536 + s.a

/-- The checksum obtained by writing a sequence of packet byte buffers, in
decode order, into a fresh hasher — exactly what `FormatReaderIter::process`
computes from the packet stream. -/
def checksumOfPackets (packets : List (List Nat)) : Nat :=
  (packets.foldl Adler32.write Adler32.new).finish

/-- The Adler-32 value of one flat byte sequence. -/
def adlerOfBytes (bytes : List Nat) : Nat :=
  (Adler32.new.write bytes).finish

/-! ## Numeric tag parsing (`parse_gain`, `replaygain.rs` lines 122–128)

`parse_gain` filters the input string, keeping numeric characters and
`'-'`, `'+'`, `'.'`, and parses the remainder with Rust's `f32::from_str`.
The numeric value is modelled exactly, as a rational.  Rust's
`char::is_numeric` is the Unicode numeric property (general categories Nd,
Nl, No) — external character data, so the embedding takes it as a
parameter (`parse_gain_rust`); `parse_gain` is its instance at the ASCII
reading `Char.isDigit`, which coincides with `char::is_numeric` on every
ASCII character and on non-numeric characters such as `'🥺'`, i.e. on
every character of the tag strings this development feeds it.  The two
readings differ exactly at non-ASCII numerics such as `'½'` (kept by the
source and then rejected by the float parse); that difference is the
subject of the C9 correction. -/

/-- An exactly-represented decimal number: value `num / 10 ^ scale`.  This
models the numeric value a successful `f32::from_str` call denotes; the
claims only ever carry these values around or compare them with decimal
literals, so the exact decimal (not a rounded binary float) is the faithful
carrier.  Kept unnormalized so that all operations reduce in the kernel. -/
structure Dec where
  num : Int
  scale : Nat
  deriving DecidableEq, Repr

/-- The rational value a `Dec` denotes. -/
def Dec.toRat (d : Dec) : ℚ :=
  (d.num : ℚ) / (10 : ℚ) ^ d.scale

/-- The characters `parse_gain` keeps —
`c.is_numeric() || matches!(c, '-' | '+' | '.')` — with `char::is_numeric`
the parameter `isNumeric`. -/
def rustKeptChar (isNumeric : Char → Bool) (c : Char) : Bool :=
  isNumeric c || (c = '-' || c = '+' || c = '.')

/-- Numeric value of a digit string, most significant first. -/
def digitsVal (ds : List Char) : Nat :=
  ds.foldl (fun acc c => 10 * acc + c.toNat - 48) 0

/-- The unsigned part of Rust's float grammar over the filtered alphabet
(no letters survive the filter, so no `inf`/`nan`/exponent forms):
`digits+ | digits+ . digits* | . digits+`, consuming the whole input.
Returns mantissa value and fraction-digit count. -/
def parseMantissa (cs : List Char) : Option (Nat × Nat) :=
  let intPart := cs.takeWhile Char.isDigit
  let rest := cs.dropWhile Char.isDigit
  match rest with
  | [] => if intPart.isEmpty then none else some (digitsVal intPart, 0)
  | c :: frac =>
    if c = '.' ∧ frac.all Char.isDigit ∧ ¬(intPart.isEmpty ∧ frac.isEmpty) then
      some (digitsVal intPart * 10 ^ frac.length + digitsVal frac, frac.length)
    else
      none

/-- Rust's `f32::from_str` restricted to the filtered alphabet: an optional
leading sign followed by a mantissa. -/
def parseFloat (cs : List Char) : Option Dec :=
  match cs with
  | [] => none
  | c :: rest =>
    if c = '-' then (parseMantissa rest).map (fun m => ⟨-(m.1 : Int), m.2⟩)
    else if c = '+' then (parseMantissa rest).map (fun m => ⟨(m.1 : Int), m.2⟩)
    else (parseMantissa cs).map (fun m => ⟨(m.1 : Int), m.2⟩)

deriving instance DecidableEq for Except

/-- `parse_gain` (`replaygain.rs`) with `char::is_numeric` a parameter:
keep numeric characters and `- + .`, parse the remainder as a float; a
parse failure becomes `EleanorError::ParseFloatError`.  Faithful to the
source for any model of the numeric predicate, so every statement
quantified over `isNumeric` holds in particular at the true Unicode
predicate. -/
def parse_gain_rust (isNumeric : Char → Bool) (gain : String) : Except EleanorError Dec :=
  match parseFloat (gain.toList.filter (rustKeptChar isNumeric)) with
  | some q => .ok q
  | none => .error .parseFloatError

/-- `parse_gain` at the ASCII reading of `char::is_numeric`: exact for
every string on whose characters `char::is_numeric` agrees with
`Char.isDigit` (all ASCII characters, and non-numeric ones such as `'🥺'`)
— which covers every tag string this development feeds it.  It is also
precisely the spec sentence's description — strip every character except
digits, sign characters and the decimal point, then parse — and serves as
that reading in the C9 counterexample. -/
def parse_gain (gain : String) : Except EleanorError Dec :=
  parse_gain_rust Char.isDigit gain

/-- `char::is_numeric` pinned at the characters this development applies
it to: on every ASCII character `is_numeric` coincides with
`Char.isDigit`, and `'½'` (U+00BD, Unicode general category No) is
numeric.  Faithful on exactly those characters; every string it is
applied to below is drawn from them. -/
def isNumericPinned (c : Char) : Bool :=
  c.isDigit || c = '½'


/-! ## Container data (lofty tags, symphonia tracks and packets)

The tag reader and the audio container are external collaborators
(`lofty`, `symphonia`); the embedding keeps exactly the observations the
pipeline makes of them. -/

/-- A lofty `Tag`, restricted to the lookups the pipeline performs: the four
ReplayGain text items read through `get_string`, and the metadata accessors
copied into the catalog record. -/
structure Tag where
  replayGainTrackGain : Option String
  replayGainTrackPeak : Option String
  replayGainAlbumGain : Option String
  replayGainAlbumPeak : Option String
  artist : Option String
  albumArtist : Option String
  title : Option String
  album : Option String
  genre : Option String
  track : Option Nat
  disk : Option Nat
  year : Option Nat
  deriving DecidableEq, Repr

/-- What the (external) symphonia decoder would produce for one packet:
interleaved samples, a recoverable `DecodeError`, or a fatal error.  Sample
values are abstract `Int`s — only their identity and order matter. -/
inductive DecodeResult where
  | ok (samples : List Int)
  | decodeError
  | fatal (e : SymphoniaError)
  deriving DecidableEq, Repr

/-- A symphonia `Packet`: owning track id, raw byte payload (fed to the
checksum), and the outcome its decode would produce. -/
structure Packet where
  trackId : Nat
  data : List Nat
  decodeResult : DecodeResult
  deriving DecidableEq, Repr

/-- The codec parameters of a track: optional sample rate, optional channel
count, and whether `get_codecs().make(params, …)` would fail for them. -/
structure CodecParams where
  sampleRate : Option Nat
  channels : Option Nat
  makeDecoderFails : Bool
  deriving DecidableEq, Repr

/-- A symphonia `Track`: id and codec parameters. -/
structure Track where
  id : Nat
  codecParams : CodecParams
  deriving DecidableEq, Repr

/-- A symphonia `FormatReader`: the default track and the stream of
`next_packet` results (after the last list entry the model treats the
stream as ended, i.e. as an unbounded tail of `UnexpectedEof`). -/
structure FormatReader where
  defaultTrack : Option Track
  stream : List (Except SymphoniaError Packet)
  deriving DecidableEq, Repr

/-! ## `ReplayGainResult` and tag reconciliation (`replaygain.rs`) -/

/-- `ReplayGainResult`: track gain and peak, optional album gain and peak. -/
structure ReplayGainResult where
  track_gain : Dec
  track_peak : Dec
  album_gain : Option Dec
  album_peak : Option Dec
  deriving DecidableEq, Repr

/-- `TryFrom<Option<&Tag>> for ReplayGainResult`: parse the four ReplayGain
text tags; succeed iff both track gain and track peak parsed, carrying the
album values along if they parsed too. -/
def ReplayGainResult.tryFrom (tags : Option Tag) : Except EleanorError ReplayGainResult :=
  let rg_track_gain := (tags.bind Tag.replayGainTrackGain).bind fun v => (parse_gain v).toOption
  let rg_track_peak := (tags.bind Tag.replayGainTrackPeak).bind fun v => (parse_gain v).toOption
  let rg_album_gain := (tags.bind Tag.replayGainAlbumGain).bind fun v => (parse_gain v).toOption
  let rg_album_peak := (tags.bind Tag.replayGainAlbumPeak).bind fun v => (parse_gain v).toOption
  match rg_track_gain, rg_track_peak with
  | some track_gain, some track_peak =>
    .ok ⟨track_gain, track_peak, rg_album_gain, rg_album_peak⟩
  | _, _ =>
    .error (.miette "REPLAYGAIN_TRACK_GAIN and/or REPLAYGAIN_TRACK_PEAK tags were missing")

/-! ## The loudness accumulator (`ReplayGain`, `replaygain.rs`)

The DSP internals of the external `replaygain` crate are a parameter: the
set of sample rates `replaygain::ReplayGain::new` accepts is `rgNew`, and
the gain/peak computation `process_samples`/`finish` performs over the
accumulated samples is `computeTrack`. -/

/-- The `ReplayGain` accumulator state: accumulated interleaved samples,
the selected track id, and the reusable sample buffer (`None` until the
first successful decode). -/
structure ReplayGain where
  data : List Int
  trackId : Nat
  sampleBuf : Option (List Int)
  deriving DecidableEq, Repr

/-- `ReplayGain::init`: fails if `rgNew` rejects the sample rate (the
`replaygain` crate's supported-rate gate) or if making a decoder for the
track's codec parameters fails; otherwise starts with no samples and no
sample buffer. -/
def ReplayGain.init (rgNew : Nat → Bool) (sample_rate : Nat) (track : Track) :
    Except EleanorError ReplayGain :=
  if rgNew sample_rate then
    if track.codecParams.makeDecoderFails then
      .error (.symphonia .other)
    else
      .ok ⟨[], track.id, none⟩
  else
    .error (.miette "Unsupported sample rate")

/-- `ReplayGain::handle_packet`: for a packet of the selected track, decode
it; on success (re)fill the sample buffer with the decoded samples; on a
recoverable `DecodeError` do nothing; on any other error return it.  Then —
whenever the sample buffer is non-empty — extend `data` with the buffer's
contents.  (The extend step is outside the match in the source, so it also
runs after a skipped `DecodeError` packet.) -/
def ReplayGain.handle_packet (rg : ReplayGain) (packet : Packet) :
    Except EleanorError ReplayGain :=
  if packet.trackId = rg.trackId then
    match packet.decodeResult with
    | .ok buffer =>
      let rg1 : ReplayGain := { rg with sampleBuf := some buffer }
      match rg1.sampleBuf with
      | some buf => .ok { rg1 with data := rg1.data ++ buf }
      | none => .ok rg1
    | .decodeError =>
      match rg.sampleBuf with
      | some buf => .ok { rg with data := rg.data ++ buf }
      | none => .ok rg
    | .fatal e => .error (.symphonia e)
  else
    .ok rg

/-- `ReplayGain::finish`: fails if no samples were ever accumulated;
otherwise runs the loudness algorithm (`computeTrack`) over the accumulated
samples — the album fields of the result are `None`. -/
def ReplayGain.finish (computeTrack : List Int → Dec × Dec) (rg : ReplayGain) :
    Except EleanorError ReplayGainResult :=
  if rg.data.isEmpty then
    .error (.miette "No samples were decoded from input audio")
  else
    .ok ⟨(computeTrack rg.data).1, (computeTrack rg.data).2, none, none⟩

/-! ## The dual-pass decode iterator (`FormatReaderIter`, `indexing.rs`) -/

/-- The tri-state loudness state carried by the iterator. -/
inductive ReplayGainState where
  | finished (rg_res : ReplayGainResult)
  | computing (rg : ReplayGain)
  | failed (e : EleanorError)
  deriving DecidableEq, Repr

/-- `ReplayGainState::handle_packet`: only the `Computing` state feeds the
packet to the accumulator; an accumulator error moves the state to
`Failed`; `Finished` and `Failed` ignore the packet. -/
def ReplayGainState.handle_packet (s : ReplayGainState) (packet : Packet) : ReplayGainState :=
  match s with
  | .computing rg =>
    match rg.handle_packet packet with
    | .ok rg1 => .computing rg1
    | .error e => .failed e
  | s => s

/-- The iterator: remaining `next_packet` results, the recorded non-EOF
stream error, the checksum state, and the loudness state. -/
structure FormatReaderIter where
  inner : List (Except SymphoniaError Packet)
  error : Option SymphoniaError
  hash : Adler32
  rg : ReplayGainState
  deriving DecidableEq, Repr

/-- `FormatReaderIter::new`: require a default track, exactly two channels
and a known sample rate; then either adopt the pre-supplied tag result as
`Finished`, or initialize the accumulator (`Computing` on success,
`Failed` on error). -/
def FormatReaderIter.new (rgNew : Nat → Bool) (inner : FormatReader)
    (rg : Option ReplayGainResult) : Except EleanorError FormatReaderIter := do
  let some track := inner.defaultTrack
    | .error (.miette "No default track was found")
  let params := track.codecParams
  if ! (params.channels.elim false (fun x => x == 2)) then
    .error (.miette "Unsupported channel configuration")
  else
    match params.sampleRate with
    | none => .error (.miette "Sample rate must be known")
    | some sample_rate =>
      let rg := match rg with
        | some rg_res => ReplayGainState.finished rg_res
        | none =>
          match ReplayGain.init rgNew sample_rate track with
          | .ok rg => ReplayGainState.computing rg
          | .error e => ReplayGainState.failed e
      .ok ⟨inner.stream, none, Adler32.new, rg⟩

/-- One pass of the `while let` loop of `FormatReaderIter::process` over the
remaining `next_packet` results (`Iterator::next` for `&mut
FormatReaderIter`): an `UnexpectedEof` I/O error ends the loop normally,
any other error is recorded and ends the loop, and each yielded packet is
hashed and offered to the loudness state. -/
def processLoop (stream : List (Except SymphoniaError Packet)) (hash : Adler32)
    (rg : ReplayGainState) : Adler32 × Option SymphoniaError × ReplayGainState :=
  match stream with
  | [] => (hash, none, rg)
  | .error e :: _ =>
    if e = .ioUnexpectedEof then (hash, none, rg) else (hash, some e, rg)
  | .ok packet :: rest =>
    processLoop rest (hash.write packet.data) (rg.handle_packet packet)

/-- `FormatReaderIter::process`: run the loop, always yield the checksum;
surface a recorded stream error first, otherwise resolve the loudness
state (`Finished` passes through, `Computing` is finished, `Failed`
yields its error). -/
def FormatReaderIter.process (computeTrack : List Int → Dec × Dec)
    (it : FormatReaderIter) : Nat × Except EleanorError ReplayGainResult :=
  let res := processLoop it.inner it.hash it.rg
  let hash := res.1.finish
  match res.2.1 with
  | some error => (hash, .error (.symphonia error))
  | none =>
    (hash, match res.2.2 with
      | .finished rg_res => .ok rg_res
      | .computing rg => rg.finish computeTrack
      | .failed e => .error e)

/-! ## Per-file indexing (`index_song`, `indexing.rs`) -/

/-- The observations `index_song` makes of one `walkdir::DirEntry` and of
the collaborators it consults for it: directory/media-type classification
(used by `index_source`'s candidate filter), the modification time (an
abstract time point in seconds; `metadata()`/`modified()` failures become
the error case), the parent-path and filename components, the result of
`lofty::read_from_path` (primary/first tag already folded into one
`Option Tag`, plus the properties' duration in milliseconds), and the
result of `get_packets` (the probed `FormatReader`). -/
structure DirEntry where
  isDir : Bool
  mimeAudio : Bool
  modifiedTime : Except EleanorError Int
  pathParent : Option String
  fileName : Option String
  tagged : Except EleanorError (Option Tag × Nat)
  reader : Except EleanorError FormatReader
  deriving DecidableEq, Repr

/-- A configured `Source` (`config.rs`): stable id, name, root path. -/
structure Source where
  id : Nat
  name : String
  path : String
  deriving DecidableEq, Repr

/-- Modelled from the spec: the generated `library` entity
(`model/library.rs`) declaring the column types is not among the sources;
the spec's storage width ("a narrower column") is pinned to `i32` by the
in-source migration (`Hash`/`Duration` as `integer` columns) and the
sibling entity's foreign key `song_hash: i32`.  This is `hash.try_into()?`:
checked narrowing `u64 → i32`, an explicit `TryFromIntError` when the value
exceeds `i32::MAX`, never a silent truncation. -/
def u64ToI32 (n : Nat) : Except EleanorError Int :=
  if n ≤ 2147483647 then .ok (Int.ofNat n) else .error .tryFromIntError

/-- Checked narrowing `u128 → i32` (`duration().as_millis().try_into()?`). -/
def u128ToI32 (n : Nat) : Except EleanorError Int :=
  if n ≤ 2147483647 then .ok (Int.ofNat n) else .error .tryFromIntError

/-- A `library::ActiveModel` record as `index_song` fills it (the id column
is auto-increment and left to the store). -/
structure LibraryRecord where
  path : String
  filename : String
  source_id : Nat
  hash : Int
  artist : Option String
  album_artist : Option String
  name : Option String
  album : Option String
  genres : Option String
  track : Option Int
  disc : Option Int
  year : Option Int
  duration : Int
  rg_track_gain : Option Dec
  rg_track_peak : Option Dec
  rg_album_gain : Option Dec
  rg_album_peak : Option Dec
  deriving DecidableEq, Repr

/-- `index_song`: unless `force` is set, consult the modification time and
return `None` (skip) when `modified().duration_since(indexed_ts)` is `Ok` —
i.e. when the file's modification time is at or after the cutoff; otherwise
read tags, probe the container, run the dual-pass iterator, propagate a
loudness failure, and build the catalog record with checked narrowing of
checksum and duration. -/
def index_song (rgNew : Nat → Bool) (computeTrack : List Int → Dec × Dec)
    (file : DirEntry) (source : Source) (force : Bool) (indexed_ts : Int) :
    Except EleanorError (Option LibraryRecord) := do
  if force = false then
    let mtime ← file.modifiedTime
    let modified := indexed_ts ≤ mtime
    if modified then
      return none
  let tagged ← file.tagged
  let tags := tagged.1
  let reader ← file.reader
  let it ← FormatReaderIter.new rgNew reader (ReplayGainResult.tryFrom tags).toOption
  let res := it.process computeTrack
  let rg ← res.2
  let path ← match file.pathParent with
    | some p => Except.ok p
    | none => Except.error (.miette "Could not get path for file")
  let filename ← match file.fileName with
    | some f => Except.ok f
    | none => Except.error (.miette "Could not get filename for file")
  let hash ← u64ToI32 res.1
  let duration ← u128ToI32 tagged.2
  return some {
    path := path
    filename := filename
    source_id := source.id
    hash := hash
    artist := tags.bind Tag.artist
    album_artist := tags.bind Tag.albumArtist
    name := tags.bind Tag.title
    album := tags.bind Tag.album
    genres := tags.bind Tag.genre
    track := (tags.bind Tag.track).map Int.ofNat
    disc := (tags.bind Tag.disk).map Int.ofNat
    year := (tags.bind Tag.year).map Int.ofNat
    duration := duration
    rg_track_gain := some rg.track_gain
    rg_track_peak := some rg.track_peak
    rg_album_gain := rg.album_gain
    rg_album_peak := rg.album_peak }

/-! ## The orchestrator (`index_source`, `indexing.rs`) and the store

The persistent store is modelled as the two tables the orchestrator
touches; the SQL upserts become list transformations with the same
conflict behaviour. -/

/-- A row of the `sources` table: id and optional last-indexed timestamp,
stored as a string. -/
structure SourceRow where
  id : Nat
  last_indexed : Option String
  deriving DecidableEq, Repr

/-- The store state visible to `index_source`. -/
structure Store where
  sources : List SourceRow
  library : List LibraryRecord
  deriving DecidableEq, Repr

/-- Rust's `str::parse::<i64>`: optional sign, one or more ASCII digits,
result within the `i64` range. -/
def parseI64 (s : String) : Except EleanorError Int :=
  let cs := s.toList
  let signDigits : Int × List Char :=
    match cs with
    | c :: rest =>
      if c = '-' then (-1, rest) else if c = '+' then (1, rest) else (1, cs)
    | [] => (1, [])
  if signDigits.2.isEmpty ∨ ¬ signDigits.2.all Char.isDigit then
    .error .parseIntError
  else
    let v : Int := signDigits.1 * digitsVal signDigits.2
    if -(2 ^ 63) ≤ v ∧ v ≤ 2 ^ 63 - 1 then .ok v else .error .parseIntError

/-- `OffsetDateTime::from_unix_timestamp`: the time crate accepts
timestamps whose calendar year lies within ±9999; the value itself passes
through unchanged.  No claim exercises the bounds. -/
def fromUnixTimestamp (ts : Int) : Except EleanorError Int :=
  if -377705116800 ≤ ts ∧ ts ≤ 253402300799 then
    .ok ts
  else
    .error (.miette "timestamp out of range")

/-- Steps 244–257 of `index_source`: fetch the source's row, take its
`last_indexed` string (defaulting to `"0"`), parse it as `i64` and convert
to a time point. -/
def getIndexedTs (db : Store) (sourceId : Nat) : Except EleanorError Int := do
  let ts ← parseI64
    ((((db.sources.filter (fun r => r.id == sourceId)).head?).bind
      SourceRow.last_indexed).getD "0")
  fromUnixTimestamp ts

/-- The candidate filter of `index_source`: exclude directories and entries
whose guessed media type is not audio. -/
def candidates (entries : List DirEntry) : List DirEntry :=
  (entries.filter (fun e => !e.isDir)).filter (fun e => e.mimeAudio)

/-- The `on_conflict(Hash)` update: overwrite exactly the columns listed in
`index_source` (metadata and loudness), leaving path, filename, source id
and hash as they were. -/
def updateRecord (old new : LibraryRecord) : LibraryRecord :=
  { old with
    artist := new.artist
    album_artist := new.album_artist
    name := new.name
    album := new.album
    duration := new.duration
    genres := new.genres
    track := new.track
    disc := new.disc
    year := new.year
    rg_track_gain := new.rg_track_gain
    rg_track_peak := new.rg_track_peak
    rg_album_gain := new.rg_album_gain
    rg_album_peak := new.rg_album_peak }

/-- Upsert one record keyed by checksum. -/
def upsertSong (lib : List LibraryRecord) (s : LibraryRecord) : List LibraryRecord :=
  if lib.any (fun r => r.hash == s.hash) then
    lib.map (fun r => if r.hash == s.hash then updateRecord r s else r)
  else
    lib ++ [s]

/-- `insert_many(songs).on_conflict(Hash → update).on_empty_do_nothing()`:
an empty list leaves the table untouched. -/
def insertManySongs (lib : List LibraryRecord) (songs : List LibraryRecord) :
    List LibraryRecord :=
  songs.foldl upsertSong lib

/-- The trailing timestamp upsert: insert the source row with
`last_indexed = now`, on id conflict updating only `last_indexed`. -/
def upsertSourceTimestamp (rows : List SourceRow) (sourceId : Nat) (now : Int) :
    List SourceRow :=
  if rows.any (fun r => r.id == sourceId) then
    rows.map (fun r =>
      if r.id == sourceId then { r with last_indexed := some (toString now) } else r)
  else
    rows ++ [⟨sourceId, some (toString now)⟩]

/-- `collect::<Result<Vec<_>, EleanorError>>()`: gather the per-file
results, stopping at the first error. -/
def collectResults (f : DirEntry → Except EleanorError (Option LibraryRecord)) :
    List DirEntry → Except EleanorError (List (Option LibraryRecord))
  | [] => .ok []
  | file :: rest => do
    let r ← f file
    let rs ← collectResults f rest
    return r :: rs

/-- `index_source`: read the cutoff timestamp, map `index_song` over the
candidate entries collecting into a single `Result` (the first per-file
error aborts before any store write), drop the skipped entries, then
perform the two store writes in order. -/
def index_source (rgNew : Nat → Bool) (computeTrack : List Int → Dec × Dec)
    (source : Source) (force : Bool) (entries : List DirEntry) (now : Int)
    (db : Store) : Except EleanorError Store := do
  let indexed_ts ← getIndexedTs db source.id
  let songs ← collectResults
    (fun file => index_song rgNew computeTrack file source force indexed_ts)
    (candidates entries)
  let songs := songs.reduceOption
  let db1 : Store := { db with library := insertManySongs db.library songs }
  return { db1 with sources := upsertSourceTimestamp db1.sources source.id now }

/-- The store as the caller of `index_source` sees it afterwards: the new
state on success, the old state unchanged on error (the database writes sit
after the fallible collection, so an error leaves them unexecuted). -/
def runIndexSource (rgNew : Nat → Bool) (computeTrack : List Int → Dec × Dec)
    (source : Source) (force : Bool) (entries : List DirEntry) (now : Int)
    (db : Store) : Store :=
  match index_source rgNew computeTrack source force entries now db with
  | .ok db2 => db2
  | .error _ => db

/-! ## Stream observations used by the theorems -/

/-- The first non-`UnexpectedEof` error the packet loop runs into, if any
(`Iterator::next` records it and stops). -/
def streamFatal : List (Except SymphoniaError Packet) → Option SymphoniaError
  | [] => none
  | .error e :: _ => if e = .ioUnexpectedEof then none else some e
  | .ok _ :: rest => streamFatal rest

/-- The packets the loop actually visits: the longest error-free prefix. -/
def streamPackets : List (Except SymphoniaError Packet) → List Packet
  | [] => []
  | .error _ :: _ => []
  | .ok p :: rest => p :: streamPackets rest

/-! ## Concrete fixtures

Shared concrete instances used by witnesses and counterexamples: a trivial
loudness computation, two supported-rate gates, tags, tracks, packets,
readers, directory entries and stores. -/

/-- A loudness computation returning gain 0, peak 0 for any samples. -/
def computeZero : List Int → Dec × Dec := fun _ => (⟨0, 0⟩, ⟨0, 0⟩)

/-- A loudness computation returning gain 7, peak 9 for any samples. -/
def computeSeven : List Int → Dec × Dec := fun _ => (⟨7, 0⟩, ⟨9, 0⟩)

/-- A `replaygain::ReplayGain::new` gate accepting every sample rate. -/
def rgAll : Nat → Bool := fun _ => true

/-- A `replaygain::ReplayGain::new` gate rejecting every sample rate. -/
def rgRejectAll : Nat → Bool := fun _ => false

/-- A configured source. -/
def srcA : Source := ⟨1, "local", "/music"⟩

/-- A tag carrying no items at all. -/
def emptyTag : Tag := ⟨none, none, none, none, none, none, none, none, none, none, none, none⟩

/-- A tag carrying a valid track gain/peak pair (and nothing else). -/
def tagTrackPair : Tag :=
  { emptyTag with
    replayGainTrackGain := some "-8.97 dB"
    replayGainTrackPeak := some "0.93dB" }

/-- A tag carrying only valid album gain/peak values (track pair absent). -/
def tagAlbumOnly : Tag :=
  { emptyTag with
    replayGainAlbumGain := some "2.5 dB"
    replayGainAlbumPeak := some "0.98" }

/-- A stereo track, sample rate 44100, decoder creation succeeding. -/
def stereoTrack : Track := ⟨0, ⟨some 44100, some 2, false⟩⟩

/-- A packet of track 0 that decodes to samples `[5, 6]`. -/
def pkOk : Packet := ⟨0, [1, 2, 3], .ok [5, 6]⟩

/-- A packet of track 0 whose decode hits a recoverable `DecodeError`. -/
def pkCorrupt : Packet := ⟨0, [4], .decodeError⟩

/-- A packet of track 0 whose decode hits a non-recoverable I/O error. -/
def pkBadIo : Packet := ⟨0, [9], .fatal .ioOther⟩

/-- A packet of 17 `0xFF` bytes whose Adler-32 contribution pushes the
checksum beyond `i32::MAX`. -/
def pkBig : Packet := ⟨0, List.replicate 17 255, .ok []⟩

/-- A reader with an immediately-ending packet stream. -/
def readerEmpty : FormatReader := ⟨some stereoTrack, [.error .ioUnexpectedEof]⟩

/-- A reader yielding one decodable packet, then end of stream. -/
def readerOnePacket : FormatReader := ⟨some stereoTrack, [.ok pkOk, .error .ioUnexpectedEof]⟩

/-- A reader yielding the 17-byte `0xFF` packet, then end of stream. -/
def readerBigHash : FormatReader := ⟨some stereoTrack, [.ok pkBig, .error .ioUnexpectedEof]⟩

/-- A candidate audio file with the given modification time, carrying the
valid track gain/peak pair and an empty packet stream. -/
def fileAt (mtime : Int) : DirEntry :=
  ⟨false, true, .ok mtime, some "/music/a", some "song.flac",
    .ok (some tagTrackPair, 180000), .ok readerEmpty⟩

/-- A candidate file whose tag read (`lofty::read_from_path`) fails. -/
def fileBadTags : DirEntry :=
  ⟨false, true, .ok 10, some "/music/a", some "bad.flac",
    .error .lofty, .ok readerEmpty⟩

/-- A candidate file with no tags whose audio decodes fine. -/
def fileNoTags : DirEntry :=
  ⟨false, true, .ok 10, some "/music/a", some "plain.flac",
    .ok (none, 180000), .ok readerOnePacket⟩

/-- A candidate file carrying only album-level ReplayGain tags. -/
def fileAlbumOnly : DirEntry :=
  ⟨false, true, .ok 10, some "/music/a", some "albumtag.flac",
    .ok (some tagAlbumOnly, 180000), .ok readerOnePacket⟩

/-- A candidate file whose packet bytes hash above `i32::MAX`. -/
def fileBigHash : DirEntry :=
  ⟨false, true, .ok 10, some "/music/a", some "big.flac",
    .ok (some tagTrackPair, 180000), .ok readerBigHash⟩

/-- A candidate file whose duration in milliseconds exceeds `i32::MAX`. -/
def fileLongDuration : DirEntry :=
  ⟨false, true, .ok 10, some "/music/a", some "long.flac",
    .ok (some tagTrackPair, 3000000000), .ok readerEmpty⟩

/-- A store with one source row (id 1, last indexed at 50) and no records. -/
def dbOneSource : Store := ⟨[⟨1, some "50"⟩], []⟩

/-- A single-channel (mono) track. -/
def monoTrack : Track := ⟨0, ⟨some 44100, some 1, false⟩⟩

/-- A stereo track whose sample rate is unknown. -/
def noRateTrack : Track := ⟨0, ⟨none, some 2, false⟩⟩

/-- A reader whose default track is mono. -/
def readerMono : FormatReader := ⟨some monoTrack, [.error .ioUnexpectedEof]⟩

/-- A reader whose default track has no known sample rate. -/
def readerNoRate : FormatReader := ⟨some noRateTrack, [.error .ioUnexpectedEof]⟩

/-! # Theorems

Shared helper lemmas first, then one theorem per specification claim (with
its witness or counterexample where called for). -/

/-- Writing a concatenation equals writing the parts in order. -/
theorem Adler32.write_append (s : Adler32) (xs ys : List Nat) :
    s.write (xs ++ ys) = (s.write xs).write ys :=
  List.foldl_append ..

/-- Folding `Adler32.write` over a packet list equals one write of the
concatenated bytes. -/
theorem foldl_write_join :
    ∀ (p : List (List Nat)) (s : Adler32), p.foldl Adler32.write s = s.write p.flatten := by
  intro p
  induction p with
  | nil => intro s; rfl
  | cons x xs ih =>
    intro s
    simp only [List.foldl_cons, List.flatten_cons, Adler32.write_append, ih]

/-- C4: the packet checksum is deterministic, equals the Adler-32 value of
the concatenation of all packet payloads (promoted to 64 bits), is
therefore invariant under re-segmentation of the same bytes into different
packet boundaries, and there exist non-empty packet sequences whose
reordering changes the result.  (Determinism is the first conjunct; the
hypothesis `h` states that `p1` and `p2` carry the same bytes under
different packet boundaries.) -/
theorem checksum_determined_by_byte_stream (p1 p2 : List (List Nat))
    (h : p1.flatten = p2.flatten) :
    (∀ q r : List (List Nat), q = r → checksumOfPackets q = checksumOfPackets r) ∧
    checksumOfPackets p1 = adlerOfBytes p1.flatten ∧
    checksumOfPackets p1 = checksumOfPackets p2 ∧
    ∃ q1 q2 : List (List Nat), q1.Perm q2 ∧ (∀ b ∈ q1, b ≠ []) ∧
      checksumOfPackets q1 ≠ checksumOfPackets q2 := by
  refine ⟨fun q r hqr => by rw [hqr], ?_, ?_,
    [[0], [1]], [[1], [0]], List.Perm.swap _ _ _, by decide, by decide⟩
  · simp only [checksumOfPackets, adlerOfBytes, foldl_write_join]
  · simp only [checksumOfPackets, foldl_write_join, h]

/-- Witness for C4 at a concrete re-segmentation: `[[1],[2]]` and `[[1,2]]`
carry the same byte stream. -/
theorem checksum_determined_by_byte_stream_witness :
    ([[1], [2]] : List (List Nat)).flatten = ([[1, 2]] : List (List Nat)).flatten ∧
    ((∀ q r : List (List Nat), q = r → checksumOfPackets q = checksumOfPackets r) ∧
     checksumOfPackets [[1], [2]] = adlerOfBytes ([[1], [2]] : List (List Nat)).flatten ∧
     checksumOfPackets [[1], [2]] = checksumOfPackets [[1, 2]] ∧
     ∃ q1 q2 : List (List Nat), q1.Perm q2 ∧ (∀ b ∈ q1, b ≠ []) ∧
       checksumOfPackets q1 ≠ checksumOfPackets q2) :=
  ⟨by decide, checksum_determined_by_byte_stream [[1], [2]] [[1, 2]] (by decide)⟩

/-- C9 amended: the six concrete `parse_gain` cases from the spec (each
successful case also stated as the rational the decimal denotes); the
ASCII instance agrees with the source embedding on every input on whose
characters `char::is_numeric` agrees with `Char.isDigit`; and for every
model of `char::is_numeric` the result depends only on the kept characters
(numeric characters, sign characters, decimal point) — it fails exactly
when the kept remainder is not a valid number, which, for a kept non-ASCII
numeric character, can happen even though a valid number would remain
after stripping to ASCII digits alone (see the counterexample). -/
theorem parse_gain_cases_and_kept_char_dependence :
    (parse_gain "-8.97 dB" = .ok ⟨-897, 2⟩ ∧ Dec.toRat ⟨-897, 2⟩ = -897 / 100) ∧
    (parse_gain "  13.12 dB" = .ok ⟨1312, 2⟩ ∧ Dec.toRat ⟨1312, 2⟩ = 1312 / 100) ∧
    (parse_gain "0.93dB" = .ok ⟨93, 2⟩ ∧ Dec.toRat ⟨93, 2⟩ = 93 / 100) ∧
    parse_gain "" = .error .parseFloatError ∧
    parse_gain "🥺" = .error .parseFloatError ∧
    parse_gain "   DB " = .error .parseFloatError ∧
    (∀ (isNumeric : Char → Bool) (s : String),
      (∀ c ∈ s.toList, isNumeric c = c.isDigit) →
      parse_gain_rust isNumeric s = parse_gain s) ∧
    (∀ (isNumeric : Char → Bool) (s t : String),
      s.toList.filter (rustKeptChar isNumeric) = t.toList.filter (rustKeptChar isNumeric) →
      parse_gain_rust isNumeric s = parse_gain_rust isNumeric t) := by
  refine ⟨⟨by decide, ?_⟩, ⟨by decide, ?_⟩, ⟨by decide, ?_⟩, by decide, by decide, by decide,
    fun isNumeric s hagree => ?_, fun isNumeric s t hst => ?_⟩
  · norm_num [Dec.toRat]
  · norm_num [Dec.toRat]
  · norm_num [Dec.toRat]
  · have hfe : s.toList.filter (rustKeptChar isNumeric) =
        s.toList.filter (rustKeptChar Char.isDigit) :=
      List.filter_congr (fun c hc => by simp [rustKeptChar, hagree c hc])
    rw [parse_gain]
    simp only [parse_gain_rust, hfe]
  · simp only [parse_gain_rust, hst]

/-- Witness for C9's amended theorem: ASCII agreement and kept-character
invariance at concrete inputs under the pinned numeric predicate. -/
theorem parse_gain_cases_and_kept_char_dependence_witness :
    parse_gain_rust isNumericPinned "0.93dB" = parse_gain "0.93dB" ∧
    parse_gain_rust isNumericPinned "0.93dB" = parse_gain_rust isNumericPinned " 0.93 Db" :=
  ⟨parse_gain_cases_and_kept_char_dependence.2.2.2.2.2.2.1 isNumericPinned "0.93dB"
      (by decide),
    parse_gain_cases_and_kept_char_dependence.2.2.2.2.2.2.2 isNumericPinned "0.93dB"
      " 0.93 Db" (by decide)⟩

/-- Counterexample to C9's general sentence as stated: on `"1½ dB"` the
source keeps the numeric character `'½'` (Unicode category No, so
`char::is_numeric` is true there — the pinned predicate) and the float
parse then rejects the remainder `"1½"`, so the program fails — while
stripping every character except digits, sign characters and the decimal
point (the claim's description, the ASCII instance `parse_gain`) leaves
the valid number `1`, for which the claim requires success. -/
theorem parse_gain_strip_counterexample :
    parse_gain_rust isNumericPinned "1½ dB" = .error .parseFloatError ∧
    parse_gain "1½ dB" = .ok ⟨1, 0⟩ := by
  decide

/-- C1 (evaluating the code): with `force` unset and last-index cutoff 50,
`index_song` returns `Ok(None)` — skips — for files modified at 100 and at
50 (at or after the cutoff), and fully processes a file modified at 10
(strictly before the cutoff): the opposite of the incremental-skip
contract. -/
theorem index_song_incremental_skip_inverted :
    index_song rgAll computeZero (fileAt 100) srcA false 50 = .ok none ∧
    index_song rgAll computeZero (fileAt 50) srcA false 50 = .ok none ∧
    index_song rgAll computeZero (fileAt 10) srcA false 50 ≠ .ok none ∧
    (index_song rgAll computeZero (fileAt 10) srcA false 50).isOk = true := by
  decide

/-- C7 (evaluating the code): a corrupt-frame packet arriving before any
successful decode is skipped with the data untouched and `handle_packet`
returns success; but after a successful decode of `[5, 6]`, the same
corrupt-frame packet makes the accumulated data grow to `[5, 6, 5, 6]` —
the stale sample buffer is appended again, so the packet is not sample-free
as the claim states; a non-recoverable decode error is propagated. -/
theorem handle_packet_corrupt_frame_evaluation :
    ReplayGain.handle_packet ⟨[], 0, none⟩ pkCorrupt = .ok ⟨[], 0, none⟩ ∧
    ReplayGain.handle_packet ⟨[], 0, none⟩ pkOk = .ok ⟨[5, 6], 0, some [5, 6]⟩ ∧
    ReplayGain.handle_packet ⟨[5, 6], 0, some [5, 6]⟩ pkCorrupt =
      .ok ⟨[5, 6, 5, 6], 0, some [5, 6]⟩ ∧
    ReplayGain.handle_packet ⟨[5, 6], 0, some [5, 6]⟩ pkBadIo =
      .error (.symphonia .ioOther) := by
  decide

/-- In the `Failed` loudness state the packet loop never touches the
loudness state again and hashes every visited packet. -/
theorem processLoop_failed_state (e : EleanorError) :
    ∀ (stream : List (Except SymphoniaError Packet)) (h : Adler32),
      streamFatal stream = none →
      processLoop stream h (.failed e) =
        ((streamPackets stream).foldl (fun s p => s.write p.data) h, none, .failed e) := by
  intro stream
  induction stream with
  | nil => intro h _; rfl
  | cons hd tl ih =>
    intro h hfat
    cases hd with
    | error er =>
      by_cases heq : er = .ioUnexpectedEof
      · subst heq; rfl
      · exact absurd hfat (by simp [streamFatal, heq])
    | ok p =>
      have hfat2 : streamFatal tl = none := by simpa [streamFatal] using hfat
      simp only [processLoop, streamPackets, List.foldl_cons,
        ReplayGainState.handle_packet, ih _ hfat2]

/-- C3 amended: a failed loudness path never interrupts checksum
accumulation — on a stream whose packet loop ends normally, `process` on an
iterator in the `Failed e` state hashes every packet and yields the
checksum of all packet bytes together with the loudness error `e` surfaced
separately.  (But `index_song` then propagates that error, so the file
yields no catalog record — see the counterexample.) -/
theorem failed_loudness_checksum_uninterrupted
    (computeTrack : List Int → Dec × Dec) (stream : List (Except SymphoniaError Packet))
    (e : EleanorError) (h : streamFatal stream = none) :
    FormatReaderIter.process computeTrack ⟨stream, none, Adler32.new, .failed e⟩ =
      (adlerOfBytes ((streamPackets stream).map Packet.data).flatten, .error e) := by
  have hloop := processLoop_failed_state e stream Adler32.new h
  simp only [FormatReaderIter.process, hloop, adlerOfBytes]
  have : (streamPackets stream).foldl (fun s p => s.write p.data) Adler32.new =
      ((streamPackets stream).map Packet.data).foldl Adler32.write Adler32.new := by
    rw [List.foldl_map]
  rw [this, foldl_write_join, Adler32.write]

/-- Witness for C3's amended theorem: a one-packet stream with a failed
loudness state still hashes the packet. -/
theorem failed_loudness_checksum_uninterrupted_witness :
    streamFatal [.ok pkOk, .error .ioUnexpectedEof] = none ∧
    FormatReaderIter.process computeZero
      ⟨[.ok pkOk, .error .ioUnexpectedEof], none, Adler32.new, .failed .lofty⟩ =
      (adlerOfBytes ((streamPackets [.ok pkOk, .error .ioUnexpectedEof]).map
        Packet.data).flatten, .error .lofty) :=
  ⟨by decide,
    failed_loudness_checksum_uninterrupted computeZero
      [.ok pkOk, .error .ioUnexpectedEof] .lofty (by decide)⟩

/-- Counterexample to C3 as stated: for a file whose loudness accumulator
initialization fails (no tags, every sample rate unsupported) the checksum
pass completes, yet `index_song` propagates the loudness error and the file
produces no catalog record. -/
theorem loudness_failure_fails_file_counterexample :
    index_song rgRejectAll computeZero fileNoTags srcA true 0 =
      .error (.miette "Unsupported sample rate") := by
  decide

/-- C5: when both track-gain and track-peak tags parse, the reconciled
loudness state is `Finished` with exactly the parsed values (album values
carried along from the tags) and the accumulator is never initialized —
the iterator is independent of the loudness algorithm's supported-rate
gate — nor invoked — the `Finished` state ignores every packet.  Exactly
otherwise the tag conversion yields nothing, the computation path is
taken (`Computing`, or `Failed` if initialization fails), and the
malformed tag by itself still leaves iterator construction successful. -/
theorem loudness_tag_precedence (rgNew rgNew2 : Nat → Bool) (reader : FormatReader)
    (track : Track) (sr : Nat) (tag : Tag)
    (htrack : reader.defaultTrack = some track)
    (hch : track.codecParams.channels = some 2)
    (hsr : track.codecParams.sampleRate = some sr) :
    (∀ g p,
      tag.replayGainTrackGain.bind (fun v => (parse_gain v).toOption) = some g →
      tag.replayGainTrackPeak.bind (fun v => (parse_gain v).toOption) = some p →
      FormatReaderIter.new rgNew reader (ReplayGainResult.tryFrom (some tag)).toOption =
        .ok ⟨reader.stream, none, Adler32.new, .finished
          ⟨g, p, tag.replayGainAlbumGain.bind (fun v => (parse_gain v).toOption),
            tag.replayGainAlbumPeak.bind (fun v => (parse_gain v).toOption)⟩⟩ ∧
      FormatReaderIter.new rgNew reader (ReplayGainResult.tryFrom (some tag)).toOption =
        FormatReaderIter.new rgNew2 reader (ReplayGainResult.tryFrom (some tag)).toOption) ∧
    (∀ r packet, ReplayGainState.handle_packet (.finished r) packet = .finished r) ∧
    ((tag.replayGainTrackGain.bind (fun v => (parse_gain v).toOption) = none ∨
      tag.replayGainTrackPeak.bind (fun v => (parse_gain v).toOption) = none) →
      (ReplayGainResult.tryFrom (some tag)).toOption = none ∧
      ∃ it, FormatReaderIter.new rgNew reader none = .ok it ∧
        ((∃ rg, it.rg = .computing rg) ∨ (∃ e, it.rg = .failed e))) := by
  refine ⟨fun g p hg hp => ?_, fun r packet => rfl, fun hnone => ?_⟩
  · have h1 : ReplayGainResult.tryFrom (some tag) =
        .ok ⟨g, p, tag.replayGainAlbumGain.bind (fun v => (parse_gain v).toOption),
          tag.replayGainAlbumPeak.bind (fun v => (parse_gain v).toOption)⟩ := by
      simp only [ReplayGainResult.tryFrom, Option.some_bind, hg, hp]
    have key : ∀ rgN : Nat → Bool,
        FormatReaderIter.new rgN reader (ReplayGainResult.tryFrom (some tag)).toOption =
          .ok ⟨reader.stream, none, Adler32.new, .finished
            ⟨g, p, tag.replayGainAlbumGain.bind (fun v => (parse_gain v).toOption),
              tag.replayGainAlbumPeak.bind (fun v => (parse_gain v).toOption)⟩⟩ := by
      intro rgN
      rw [h1]
      simp [FormatReaderIter.new, htrack, hch, hsr, Except.toOption]
    exact ⟨key rgNew, (key rgNew).trans (key rgNew2).symm⟩
  · have htf : (ReplayGainResult.tryFrom (some tag)).toOption = none := by
      rcases hnone with h | h
      · have h1 : ReplayGainResult.tryFrom (some tag) = .error
            (.miette "REPLAYGAIN_TRACK_GAIN and/or REPLAYGAIN_TRACK_PEAK tags were missing") := by
          simp only [ReplayGainResult.tryFrom, Option.some_bind, h]
        rw [h1]; rfl
      · have h1 : ReplayGainResult.tryFrom (some tag) = .error
            (.miette "REPLAYGAIN_TRACK_GAIN and/or REPLAYGAIN_TRACK_PEAK tags were missing") := by
          cases hG : tag.replayGainTrackGain.bind (fun v => (parse_gain v).toOption) <;>
            simp only [ReplayGainResult.tryFrom, Option.some_bind, h, hG]
        rw [h1]; rfl
    refine ⟨htf, ?_⟩
    cases hinit : ReplayGain.init rgNew sr track with
    | ok rg =>
      refine ⟨⟨reader.stream, none, Adler32.new, .computing rg⟩, ?_, .inl ⟨rg, rfl⟩⟩
      simp [FormatReaderIter.new, htrack, hch, hsr, hinit]
    | error er =>
      refine ⟨⟨reader.stream, none, Adler32.new, .failed er⟩, ?_, .inr ⟨er, rfl⟩⟩
      simp [FormatReaderIter.new, htrack, hch, hsr, hinit]

/-- Witness for C5: the tag pair `-8.97 dB` / `0.93dB` is adopted verbatim
with the accumulator left out, independently of whether the loudness
algorithm supports any sample rate at all. -/
theorem loudness_tag_precedence_witness :
    readerEmpty.defaultTrack = some stereoTrack ∧
    stereoTrack.codecParams.channels = some 2 ∧
    stereoTrack.codecParams.sampleRate = some 44100 ∧
    tagTrackPair.replayGainTrackGain.bind (fun v => (parse_gain v).toOption) =
      some ⟨-897, 2⟩ ∧
    tagTrackPair.replayGainTrackPeak.bind (fun v => (parse_gain v).toOption) =
      some ⟨93, 2⟩ ∧
    FormatReaderIter.new rgAll readerEmpty
        (ReplayGainResult.tryFrom (some tagTrackPair)).toOption =
      .ok ⟨readerEmpty.stream, none, Adler32.new,
        .finished ⟨⟨-897, 2⟩, ⟨93, 2⟩, none, none⟩⟩ ∧
    FormatReaderIter.new rgAll readerEmpty
        (ReplayGainResult.tryFrom (some tagTrackPair)).toOption =
      FormatReaderIter.new rgRejectAll readerEmpty
        (ReplayGainResult.tryFrom (some tagTrackPair)).toOption :=
  ⟨rfl, rfl, rfl, by decide, by decide,
    ((loudness_tag_precedence rgAll rgRejectAll readerEmpty stereoTrack 44100 tagTrackPair
      rfl rfl rfl).1 ⟨-897, 2⟩ ⟨93, 2⟩ (by decide) (by decide)).1,
    ((loudness_tag_precedence rgAll rgRejectAll readerEmpty stereoTrack 44100 tagTrackPair
      rfl rfl rfl).1 ⟨-897, 2⟩ ⟨93, 2⟩ (by decide) (by decide)).2⟩

/-- C6 amended: a result produced by the accumulator's `finish` always has
`None` album gain and album peak — album values are never attached on the
computed path; they are sourced from tags only when the track pair is
valid, in which case they equal the parsed album tag values. -/
theorem computed_loudness_album_fields_none (computeTrack : List Int → Dec × Dec)
    (rg : ReplayGain) (r : ReplayGainResult) (h : rg.finish computeTrack = .ok r) :
    (r.album_gain = none ∧ r.album_peak = none) ∧
    (∀ tags res, ReplayGainResult.tryFrom tags = .ok res →
      res.album_gain = (tags.bind Tag.replayGainAlbumGain).bind
        (fun v => (parse_gain v).toOption) ∧
      res.album_peak = (tags.bind Tag.replayGainAlbumPeak).bind
        (fun v => (parse_gain v).toOption)) := by
  constructor
  · rw [ReplayGain.finish] at h
    by_cases hd : rg.data.isEmpty
    · simp [hd] at h
    · simp only [hd, Bool.false_eq_true, if_false, Except.ok.injEq] at h
      rw [← h]
      exact ⟨rfl, rfl⟩
  · intro tags res htf
    rw [ReplayGainResult.tryFrom] at htf
    cases hG : (tags.bind Tag.replayGainTrackGain).bind (fun v => (parse_gain v).toOption) with
    | none => rw [hG] at htf; cases htf
    | some g =>
      cases hP : (tags.bind Tag.replayGainTrackPeak).bind (fun v => (parse_gain v).toOption) with
      | none => rw [hG, hP] at htf; cases htf
      | some p =>
        rw [hG, hP] at htf
        simp only [Except.ok.injEq] at htf
        rw [← htf]
        exact ⟨rfl, rfl⟩

/-- Witness for C6's amended theorem: `finish` over accumulated samples
`[5, 6]` yields the computed track values with no album fields. -/
theorem computed_loudness_album_fields_none_witness :
    ReplayGain.finish computeSeven ⟨[5, 6], 0, some [5, 6]⟩ =
      .ok ⟨⟨7, 0⟩, ⟨9, 0⟩, none, none⟩ ∧
    ((⟨⟨7, 0⟩, ⟨9, 0⟩, none, none⟩ : ReplayGainResult).album_gain = none ∧
     (⟨⟨7, 0⟩, ⟨9, 0⟩, none, none⟩ : ReplayGainResult).album_peak = none) :=
  ⟨by decide,
    (computed_loudness_album_fields_none computeSeven ⟨[5, 6], 0, some [5, 6]⟩
      ⟨⟨7, 0⟩, ⟨9, 0⟩, none, none⟩ (by decide)).1⟩

/-- Counterexample to C6 as stated: a file with parseable album gain/peak
tags but no track pair goes down the computed path, and the resulting
catalog record carries `None` for both album fields — the parsed album tag
values are *not* overlaid. -/
theorem album_tags_not_overlaid_on_computed_result :
    parse_gain "2.5 dB" = .ok ⟨25, 1⟩ ∧
    parse_gain "0.98" = .ok ⟨98, 2⟩ ∧
    tagAlbumOnly.replayGainTrackGain = none ∧
    (index_song rgAll computeSeven fileAlbumOnly srcA true 0).map
      (Option.map LibraryRecord.rg_album_gain) = .ok (some none) ∧
    (index_song rgAll computeSeven fileAlbumOnly srcA true 0).map
      (Option.map LibraryRecord.rg_album_peak) = .ok (some none) := by
  decide

/-- C8 amended: iterator construction fails for a channel layout that is
not exactly two channels and for an unknown sample rate, in both cases
regardless of the tag state (any pre-supplied loudness result); a known
sample rate the loudness algorithm rejects causes a failure only on the
computation path (no pre-supplied result), recorded as the `Failed`
loudness state. -/
theorem loudness_init_gating (rgNew : Nat → Bool) (reader : FormatReader)
    (track : Track) (rgArg : Option ReplayGainResult) (sr : Nat)
    (htrack : reader.defaultTrack = some track) :
    (track.codecParams.channels.elim false (fun x => x == 2) = false →
      FormatReaderIter.new rgNew reader rgArg =
        .error (.miette "Unsupported channel configuration")) ∧
    (track.codecParams.channels = some 2 → track.codecParams.sampleRate = none →
      FormatReaderIter.new rgNew reader rgArg =
        .error (.miette "Sample rate must be known")) ∧
    (track.codecParams.channels = some 2 → track.codecParams.sampleRate = some sr →
      rgNew sr = false →
      FormatReaderIter.new rgNew reader none =
        .ok ⟨reader.stream, none, Adler32.new,
          .failed (.miette "Unsupported sample rate")⟩) := by
  refine ⟨fun hch => ?_, fun hch hsr => ?_, fun hch hsr hrg => ?_⟩
  · simp [FormatReaderIter.new, htrack, hch]
  · simp [FormatReaderIter.new, htrack, hch, hsr]
  · simp [FormatReaderIter.new, htrack, hch, hsr, ReplayGain.init, hrg]

/-- Witness for C8's amended theorem: mono fails, a missing sample rate
fails, and an unsupported rate on the computation path yields `Failed`. -/
theorem loudness_init_gating_witness :
    FormatReaderIter.new rgAll readerMono none =
      .error (.miette "Unsupported channel configuration") ∧
    FormatReaderIter.new rgAll readerNoRate none =
      .error (.miette "Sample rate must be known") ∧
    FormatReaderIter.new rgRejectAll readerEmpty none =
      .ok ⟨readerEmpty.stream, none, Adler32.new,
        .failed (.miette "Unsupported sample rate")⟩ :=
  ⟨(loudness_init_gating rgAll readerMono monoTrack none 0 rfl).1 (by decide),
    (loudness_init_gating rgAll readerNoRate noRateTrack none 0 rfl).2.1 rfl rfl,
    (loudness_init_gating rgRejectAll readerEmpty stereoTrack none 44100 rfl).2.2
      rfl rfl rfl⟩

/-- Counterexample to C8 as stated: with a known but unsupported sample
rate and valid ReplayGain tags supplied, no loudness failure occurs at all:
the iterator is created in the `Finished` state and the file indexes
successfully. -/
theorem unsupported_rate_with_valid_tags_succeeds :
    rgRejectAll 44100 = false ∧
    stereoTrack.codecParams.sampleRate = some 44100 ∧
    FormatReaderIter.new rgRejectAll readerEmpty
        (ReplayGainResult.tryFrom (some tagTrackPair)).toOption =
      .ok ⟨readerEmpty.stream, none, Adler32.new,
        .finished ⟨⟨-897, 2⟩, ⟨93, 2⟩, none, none⟩⟩ ∧
    (index_song rgRejectAll computeZero (fileAt 10) srcA true 0).isOk = true := by
  decide

/-- If any entry's processing fails, collecting the per-file results
fails. -/
theorem collectResults_error_of_mem (f : DirEntry → Except EleanorError (Option LibraryRecord)) :
    ∀ (l : List DirEntry) (a : DirEntry) (e : EleanorError),
      a ∈ l → f a = .error e → ∃ e2, collectResults f l = .error e2 := by
  intro l
  induction l with
  | nil => intro a e h _; cases h
  | cons hd tl ih =>
    intro a e hmem hfail
    rcases List.mem_cons.mp hmem with h | h
    · subst h
      exact ⟨e, by simp [collectResults, hfail, Bind.bind, Except.bind]⟩
    · cases hf : f hd with
      | error e3 => exact ⟨e3, by simp [collectResults, hf, Bind.bind, Except.bind]⟩
      | ok v =>
        obtain ⟨e2, h2⟩ := ih a e h hfail
        exact ⟨e2, by simp [collectResults, hf, h2, Bind.bind, Except.bind]⟩

/-- C2: if processing of any candidate file fails, `index_source` fails
before reaching either store write, and the caller's store — catalog
records and last-indexed timestamp alike — is exactly as it was before the
run. -/
theorem index_source_failure_leaves_store_unchanged
    (rgNew : Nat → Bool) (computeTrack : List Int → Dec × Dec) (source : Source)
    (force : Bool) (entries : List DirEntry) (now : Int) (db : Store)
    (ts : Int) (file : DirEntry) (e : EleanorError)
    (hts : getIndexedTs db source.id = .ok ts)
    (hmem : file ∈ candidates entries)
    (hfail : index_song rgNew computeTrack file source force ts = .error e) :
    (∃ e2, index_source rgNew computeTrack source force entries now db = .error e2) ∧
    runIndexSource rgNew computeTrack source force entries now db = db := by
  obtain ⟨e2, h2⟩ := collectResults_error_of_mem
    (fun f => index_song rgNew computeTrack f source force ts)
    (candidates entries) file e hmem hfail
  have hsrc : index_source rgNew computeTrack source force entries now db = .error e2 := by
    simp [index_source, hts, h2, Bind.bind, Except.bind]
  exact ⟨⟨e2, hsrc⟩, by simp [runIndexSource, hsrc]⟩

/-- Witness for C2: one candidate whose tag read fails leaves a one-source
store untouched. -/
theorem index_source_failure_leaves_store_unchanged_witness :
    getIndexedTs dbOneSource srcA.id = .ok 50 ∧
    fileBadTags ∈ candidates [fileBadTags] ∧
    index_song rgAll computeZero fileBadTags srcA true 50 = .error .lofty ∧
    (∃ e2, index_source rgAll computeZero srcA true [fileBadTags] 999 dbOneSource =
      .error e2) ∧
    runIndexSource rgAll computeZero srcA true [fileBadTags] 999 dbOneSource =
      dbOneSource :=
  ⟨by decide, by decide, by decide,
    (index_source_failure_leaves_store_unchanged rgAll computeZero srcA true
      [fileBadTags] 999 dbOneSource 50 fileBadTags .lofty (by decide) (by decide)
      (by decide)).1,
    (index_source_failure_leaves_store_unchanged rgAll computeZero srcA true
      [fileBadTags] 999 dbOneSource 50 fileBadTags .lofty (by decide) (by decide)
      (by decide)).2⟩

/-- C10: narrowing the 64-bit checksum and the millisecond duration to the
`i32` storage width is a checked conversion — values in range pass through
unchanged, values out of range raise `TryFromIntError`, and a file whose
checksum (or duration) exceeds the width fails with exactly that error. -/
theorem checksum_duration_narrowing_checked (n : Nat) (hn : n ≤ 2147483647) :
    u64ToI32 n = .ok (Int.ofNat n) ∧ u128ToI32 n = .ok (Int.ofNat n) ∧
    (∀ m : Nat, 2147483647 < m →
      u64ToI32 m = .error .tryFromIntError ∧ u128ToI32 m = .error .tryFromIntError) ∧
    index_song rgAll computeZero fileBigHash srcA true 0 = .error .tryFromIntError ∧
    index_song rgAll computeZero fileLongDuration srcA true 0 = .error .tryFromIntError := by
  refine ⟨?_, ?_, fun m hm => ⟨?_, ?_⟩, by decide, by decide⟩
  · rw [u64ToI32, if_pos hn]
  · rw [u128ToI32, if_pos hn]
  · rw [u64ToI32, if_neg (by omega)]
  · rw [u128ToI32, if_neg (by omega)]

/-- Witness for C10 at checksum value 5. -/
theorem checksum_duration_narrowing_checked_witness :
    (5 : Nat) ≤ 2147483647 ∧
    u64ToI32 5 = .ok (Int.ofNat 5) ∧
    u64ToI32 2147483648 = .error .tryFromIntError ∧
    u128ToI32 2147483648 = .error .tryFromIntError ∧
    index_song rgAll computeZero fileBigHash srcA true 0 = .error .tryFromIntError ∧
    index_song rgAll computeZero fileLongDuration srcA true 0 = .error .tryFromIntError :=
  ⟨by decide,
    (checksum_duration_narrowing_checked 5 (by decide)).1,
    ((checksum_duration_narrowing_checked 5 (by decide)).2.2.1 2147483648 (by decide)).1,
    ((checksum_duration_narrowing_checked 5 (by decide)).2.2.1 2147483648 (by decide)).2,
    (checksum_duration_narrowing_checked 5 (by decide)).2.2.2.1,
    (checksum_duration_narrowing_checked 5 (by decide)).2.2.2.2⟩
